import Mathlib

/-!
Shallow embedding of the wind-data processing pipeline of the Källsjön
wind web app.

The embedded code is the `aggregatedWindData` / `processedWindData` /
`processedForecastData` memos of `src/App.tsx` (the page component that
aggregates raw wind observations into 15-minute buckets) and the
forecast-to-`WindData` conversion of `src/hooks/useForecast.ts`.

Modelling conventions:
* timestamps are `ℤ`, milliseconds on the JavaScript epoch timeline
  (`Date.getTime()`); the local-time grid of `date-fns` is identified with
  that timeline (the app's locale offset is a multiple of 15 minutes, so
  local 15-minute boundaries coincide with boundaries of this timeline);
* wind speeds, gusts and directions are `ℚ`, and the trigonometric
  direction computation (`Math.sin`/`Math.cos`/`Math.atan2`) is carried out
  over `ℝ` — the usual exact-real idealisation of JavaScript floats;
* `roundToNearestMinutes(time, { nearestTo: 15 })` of date-fns rounds the
  minute component (with its sub-minute fraction) half-up to the nearest
  multiple of 15 and zeroes seconds/milliseconds; on the millisecond
  timeline this is `900000 * ⌊(t + 450000) / 900000⌋`;
* invalid data (`NaN` dates, non-numeric fields, absent SMHI parameters)
  is modelled with `Option`;
* the `todayTimeWindow` filter of `aggregatedWindData` is modelled in its
  `todayTimeWindow = null` state, in which the code skips it;
* JavaScript `%` on numbers is the truncated-division remainder, embedded
  as `jsMod`; `Math.atan2 y x` is `Complex.arg ⟨x, y⟩`.
-/

namespace Kallsjon

/-- Fifteen minutes in milliseconds (`addMinutes(t, 15)` steps). -/
def intervalMs : ℤ := 900000

/-- A validated raw observation, as handed to the aggregation loop:
`time` (ms since epoch), `windSpeed`, `windGust`, `windDirection` (degrees). -/
structure WindObs where
  time : ℤ
  windSpeed : ℚ
  windGust : ℚ
  windDirection : ℚ
deriving DecidableEq

/-- An aggregated 15-minute bucket, as pushed onto `aggregatedData` in
`aggregatedWindData`: the record
`{ time, windSpeed, windGust, windDirection, isForecast }`. -/
structure WindBucket where
  time : ℤ
  windSpeed : ℚ
  windGust : ℚ
  windDirection : ℝ
  isForecast : Bool

/-- `Math.atan2 y x`: the argument of the complex number `x + y i`,
in `(-π, π]`. -/
noncomputable def atan2 (y x : ℝ) : ℝ := Complex.arg ⟨x, y⟩

/-- Truncation toward zero, as used by the JavaScript `%` operator. -/
noncomputable def jsTrunc (x : ℝ) : ℤ := if 0 ≤ x then ⌊x⌋ else ⌈x⌉

/-- JavaScript `a % b`: the truncated-division remainder `a - b * trunc (a / b)`. -/
noncomputable def jsMod (a b : ℝ) : ℝ := a - b * jsTrunc (a / b)

/-- `(windDirection * Math.PI) / 180` — degrees to radians. -/
noncomputable def degToRad (d : ℚ) : ℝ := (d : ℝ) * Real.pi / 180

/-- `(Math.atan2(sumSin / count, sumCos / count) * 180) / Math.PI`. -/
noncomputable def avgWindDirection (sumSin sumCos : ℝ) (count : ℕ) : ℝ :=
  atan2 (sumSin / (count : ℝ)) (sumCos / (count : ℝ)) * 180 / Real.pi

/-- `(avgWindDirection + 360) % 360`, the normalisation applied before a
bucket is pushed. -/
noncomputable def adjustedWindDirection (sumSin sumCos : ℝ) (count : ℕ) : ℝ :=
  jsMod (avgWindDirection sumSin sumCos count + 360) 360

/-- The mutable loop state of `aggregatedWindData`: the output array and the
running accumulator (`currentIntervalStart`, sums, `count`).
`nextIntervalStart` is always `currentIntervalStart + 15min` in the source,
so it is kept implicit. -/
structure AggState where
  out : List WindBucket
  currentIntervalStart : ℤ
  sumWindSpeed : ℚ
  sumWindGust : ℚ
  sumWindDirectionSin : ℝ
  sumWindDirectionCos : ℝ
  count : ℕ

/-- The bucket pushed from an accumulator (source lines building
`aggregatedData.push({...})`). -/
noncomputable def bucketOfState (st : AggState) : WindBucket :=
  { time := st.currentIntervalStart
    windSpeed := st.sumWindSpeed / (st.count : ℚ)
    windGust := st.sumWindGust / (st.count : ℚ)
    windDirection :=
      adjustedWindDirection st.sumWindDirectionSin st.sumWindDirectionCos st.count
    isForecast := false }

/-- One iteration of the `while (data.time >= nextIntervalStart)` body:
emit the current bucket when `count > 0`, advance the interval by 15
minutes, reset the accumulator. -/
noncomputable def closeInterval (st : AggState) : AggState :=
  { out := if 0 < st.count then st.out ++ [bucketOfState st] else st.out
    currentIntervalStart := st.currentIntervalStart + intervalMs
    sumWindSpeed := 0
    sumWindGust := 0
    sumWindDirectionSin := 0
    sumWindDirectionCos := 0
    count := 0 }

/-- The `while (data.time >= nextIntervalStart)` loop for one observation
time `t`. -/
noncomputable def advanceIntervals (t : ℤ) (st : AggState) : AggState :=
  if h : st.currentIntervalStart + intervalMs ≤ t then
    advanceIntervals t (closeInterval st)
  else st
termination_by (t + intervalMs - st.currentIntervalStart).toNat
decreasing_by
  simp only [closeInterval, intervalMs] at *
  omega

/-- The accumulation tail of the `forEach` body: add speed, gust and the
sine/cosine of the direction (in radians) to the sums and bump `count`. -/
noncomputable def accumulate (o : WindObs) (st : AggState) : AggState :=
  { st with
    sumWindSpeed := st.sumWindSpeed + o.windSpeed
    sumWindGust := st.sumWindGust + o.windGust
    sumWindDirectionSin := st.sumWindDirectionSin + Real.sin (degToRad o.windDirection)
    sumWindDirectionCos := st.sumWindDirectionCos + Real.cos (degToRad o.windDirection)
    count := st.count + 1 }

/-- One full `forEach` iteration of `aggregatedWindData`. -/
noncomputable def aggStep (st : AggState) (o : WindObs) : AggState :=
  accumulate o (advanceIntervals o.time st)

/-- date-fns `roundToNearestMinutes(t, { nearestTo: 15 })` on the
millisecond timeline: round half-up to the nearest multiple of 15 minutes
(`Math.round` of the fractional minute count divided by 15). -/
def roundToNearestMinutes15 (t : ℤ) : ℤ := ((t + 450000).fdiv 900000) * 900000

/-- The loop state before the `forEach`:
`currentIntervalStart = roundToNearestMinutes(filteredData[0].time, { nearestTo: 15 })`,
empty output, zeroed accumulator. -/
noncomputable def initState (t0 : ℤ) : AggState :=
  { out := []
    currentIntervalStart := roundToNearestMinutes15 t0
    sumWindSpeed := 0
    sumWindGust := 0
    sumWindDirectionSin := 0
    sumWindDirectionCos := 0
    count := 0 }

/-- `filteredData.forEach(...)` as a left fold. -/
noncomputable def runAgg (st : AggState) (l : List WindObs) : AggState :=
  l.foldl aggStep st

/-- The trailing `if (count > 0) aggregatedData.push(...)` after the loop. -/
noncomputable def finalFlush (st : AggState) : List WindBucket :=
  if 0 < st.count then st.out ++ [bucketOfState st] else st.out

/-- The `aggregatedWindData` memo of `src/App.tsx` (with
`todayTimeWindow = null`, so its range filter is skipped): returns `[]` on
empty input, otherwise seeds the interval at the first observation's
rounded time and folds the observation list. -/
noncomputable def aggregatedWindData : List WindObs → List WindBucket
  | [] => []
  | o :: l => finalFlush (runAgg (initState o.time) (o :: l))

/-- Modelled from the spec: the spec's first-interval computation, "flooring
the first observation's time down to the nearest 15-minute boundary
(minute component floored to the nearest multiple of 15, seconds/sub-second
truncated to zero)" — floor to a multiple of 15 minutes. This definition
follows the spec's words and is compared against the source's
`roundToNearestMinutes15`. -/
def floorTo15 (t : ℤ) : ℤ := (t.fdiv 900000) * 900000

/-- Modelled from the spec: `normalize360(x) = ((x mod 360) + 360) mod 360`
with JavaScript `%`. Compared against the source's single-mod
normalisation. -/
noncomputable def specNormalize360 (x : ℝ) : ℝ := jsMod (jsMod x 360 + 360) 360

/-- Sum of the wind speeds of a group of observations. -/
def sumSpeeds (g : List WindObs) : ℚ := (g.map WindObs.windSpeed).sum

/-- Sum of the wind gusts of a group of observations. -/
def sumGusts (g : List WindObs) : ℚ := (g.map WindObs.windGust).sum

/-- Sum of the direction sines of a group of observations. -/
noncomputable def sumSins (g : List WindObs) : ℝ :=
  (g.map (fun o => Real.sin (degToRad o.windDirection))).sum

/-- Sum of the direction cosines of a group of observations. -/
noncomputable def sumCoss (g : List WindObs) : ℝ :=
  (g.map (fun o => Real.cos (degToRad o.windDirection))).sum

/-- Arithmetic mean of the wind speeds of a group (`0` for the empty
group, since `0 / 0 = 0`). -/
def meanSpeed (g : List WindObs) : ℚ := sumSpeeds g / (g.length : ℚ)

/-- Arithmetic mean of the wind gusts of a group. -/
def meanGust (g : List WindObs) : ℚ := sumGusts g / (g.length : ℚ)

/-- An `AggState` whose accumulator holds exactly the pending observations
`pend` of the current interval `C`. -/
noncomputable def mkState (out : List WindBucket) (C : ℤ) (pend : List WindObs) : AggState :=
  { out := out
    currentIntervalStart := C
    sumWindSpeed := sumSpeeds pend
    sumWindGust := sumGusts pend
    sumWindDirectionSin := sumSins pend
    sumWindDirectionCos := sumCoss pend
    count := pend.length }

/-- The bucket produced for interval `C` from the group `g` of
observations accumulated in it. -/
noncomputable def bucketFor (C : ℤ) (g : List WindObs) : WindBucket :=
  { time := C
    windSpeed := sumSpeeds g / (g.length : ℚ)
    windGust := sumGusts g / (g.length : ℚ)
    windDirection := adjustedWindDirection (sumSins g) (sumCoss g) g.length
    isForecast := false }

/-- Emit a bucket for interval `C` exactly when its group is non-empty. -/
noncomputable def emitOpt (C : ℤ) (g : List WindObs) : List WindBucket :=
  if g = [] then [] else [bucketFor C g]

/-- The grid point the `while` loop stops at for an observation at `t`:
the largest `C + 15min·k` that is `≤ t` (for `t ≥ C + 15min`). -/
def nextGrid (C t : ℤ) : ℤ := C + ((t - C).fdiv intervalMs) * intervalMs

/-- Reference recursion: the buckets the aggregation loop emits when the
current interval is `C`, the accumulator holds `pend`, and the
observations `l` remain to be processed.  Proved equal to the
`foldl`/`finalFlush` pipeline below. -/
noncomputable def bucketsFrom (C : ℤ) (pend : List WindObs) : List WindObs → List WindBucket
  | [] => emitOpt C pend
  | o :: l =>
    if o.time < C + intervalMs then bucketsFrom C (pend ++ [o]) l
    else emitOpt C pend ++ bucketsFrom (nextGrid C o.time) [o] l

/-- Decidable membership of an observation in the half-open window
`[C, C + 15min)`. -/
def inWindow (C : ℤ) (o : WindObs) : Bool :=
  decide (C ≤ o.time) && decide (o.time < C + intervalMs)

/-- A raw `WindData` record before validation, as read from the database:
`none` fields model unparseable dates (`isNaN(getTime())`) and
non-numeric (`typeof ... !== 'number'`) values. -/
structure RawWindData where
  time : Option ℤ
  windSpeed : Option ℚ
  windGust : Option ℚ
  windDirection : Option ℚ
deriving DecidableEq

/-- The validity test of the `processedWindData` filter: all four fields
present; on success the validated observation. -/
def toObs? (r : RawWindData) : Option WindObs :=
  match r.time, r.windSpeed, r.windGust, r.windDirection with
  | some t, some s, some g, some d => some ⟨t, s, g, d⟩
  | _, _, _, _ => none

/-- The `processedWindData` filter with its `seenTimes` set: drop invalid
records, and of several valid records with the same timestamp keep only the
first (the validity checks run before the `seenTimes` test, so an invalid
record never claims a timestamp). -/
def dedupFilter : List RawWindData → List ℤ → List WindObs
  | [], _ => []
  | r :: l, seen =>
    match toObs? r with
    | none => dedupFilter l seen
    | some o =>
      if o.time ∈ seen then dedupFilter l seen
      else o :: dedupFilter l (o.time :: seen)

/-- The `processedWindData` memo of `src/App.tsx`: validate, deduplicate by
timestamp, then sort ascending by time (`.sort((a, b) => a.time - b.time)`,
a stable sort, modelled by insertion sort). -/
def processedWindData (l : List RawWindData) : List WindObs :=
  List.insertionSort (fun a b => a.time ≤ b.time) (dedupFilter l [])

/-- One named SMHI parameter (`{ name, values }`). -/
structure SmhiParameter where
  name : String
  values : List ℚ
deriving DecidableEq

/-- One SMHI time-series entry: the parsed `validTime` (`none` when
`new Date(validTime)` is invalid) and the parameter array. -/
structure SmhiTimePoint where
  validTime : Option ℤ
  parameters : List SmhiParameter
deriving DecidableEq

/-- A processed forecast/wind record (the `WindData` shape):
`{ time, windSpeed, windDirection, windGust, isForecast }`. -/
structure ForecastPoint where
  time : ℤ
  windSpeed : ℚ
  windDirection : ℚ
  windGust : ℚ
  isForecast : Bool
deriving DecidableEq

/-- `f.parameters.find(p => p.name === s)?.values[0]`. -/
def paramValue (f : SmhiTimePoint) (s : String) : Option ℚ :=
  (f.parameters.find? (fun p => p.name == s)).bind (fun p => p.values.head?)

/-- The first filter of `processedForecastData`: the entry has a non-empty
`ws` parameter and a non-empty `wd` parameter. -/
def hasWindParams (f : SmhiTimePoint) : Bool :=
  f.parameters.any (fun p => p.name == "ws" && !p.values.isEmpty) &&
  f.parameters.any (fun p => p.name == "wd" && !p.values.isEmpty)

/-- The `.map` of `processedForecastData`: parse the time, read `ws` and
`wd`, and build the record with `windGust = windSpeed * 1.5` and
`isForecast: true`; `null` (here `none`) when the date or a value is
missing. -/
def toForecastPoint? (f : SmhiTimePoint) : Option ForecastPoint :=
  match f.validTime with
  | none => none
  | some t =>
    match paramValue f "ws", paramValue f "wd" with
    | some ws, some wd => some ⟨t, ws, wd, ws * (3 / 2), true⟩
    | _, _ => none

/-- The time predicate of the final forecast filter:
`isToday(f.time) || f.time > new Date()`, with the current day
`[todayStart, todayEnd]` and clock `now` passed explicitly. -/
def forecastKeep (todayStart todayEnd now t : ℤ) : Bool :=
  (decide (todayStart ≤ t) && decide (t ≤ todayEnd)) || decide (now < t)

/-- The final filter of `processedForecastData` with its `seenTimes` set:
a record whose timestamp was already seen is dropped; otherwise the
timestamp is recorded and the record kept iff `keep` accepts its time. -/
def forecastFilter (keep : ℤ → Bool) : List ForecastPoint → List ℤ → List ForecastPoint
  | [], _ => []
  | p :: l, seen =>
    if p.time ∈ seen then forecastFilter keep l seen
    else if keep p.time then p :: forecastFilter keep l (p.time :: seen)
    else forecastFilter keep l (p.time :: seen)

/-- The `processedForecastData` memo of `src/App.tsx`: filter entries with
wind parameters, map them to `WindData` records (synthetic gust, forecast
tag), deduplicate/time-filter, and sort ascending by time. -/
def processedForecastData (todayStart todayEnd now : ℤ) (l : List SmhiTimePoint) :
    List ForecastPoint :=
  List.insertionSort (fun a b => a.time ≤ b.time)
    (forecastFilter (forecastKeep todayStart todayEnd now)
      ((l.filter hasWindParams).filterMap toForecastPoint?) [])

/-- Single observation 8 minutes past the hour, direction 360°. -/
def demoC1 : List WindObs := [⟨480000, 5, 7, 360⟩]

/-- Single observation 8 minutes past the hour, direction 90°. -/
def demoC2 : List WindObs := [⟨480000, 5, 7, 90⟩]

/-- Two observations one minute apart with directions 350° and 10° and
equal speed/gust. -/
def demoC3 : List WindObs := [⟨0, 5, 7, 350⟩, ⟨60000, 5, 7, 10⟩]

/-- Observations at 00:00 and 01:00 (a one-hour gap). -/
def demoC5a : List WindObs := [⟨0, 5, 7, 0⟩, ⟨3600000, 5, 7, 0⟩]

/-- Observations at 00:00 and 01:10 (the second off the grid point). -/
def demoC5b : List WindObs := [⟨0, 5, 7, 0⟩, ⟨4200000, 5, 7, 0⟩]

/-- Single observation 8 minutes past the hour, direction 0°. -/
def demoC7 : List WindObs := [⟨480000, 3, 4, 0⟩]

lemma fdiv_900000 (a : ℤ) : a.fdiv 900000 = a / 900000 :=
  Int.fdiv_eq_ediv a (by norm_num)

lemma sumSpeeds_append (g : List WindObs) (o : WindObs) :
    sumSpeeds (g ++ [o]) = sumSpeeds g + o.windSpeed := by
  simp [sumSpeeds]

lemma sumGusts_append (g : List WindObs) (o : WindObs) :
    sumGusts (g ++ [o]) = sumGusts g + o.windGust := by
  simp [sumGusts]

lemma sumSins_append (g : List WindObs) (o : WindObs) :
    sumSins (g ++ [o]) = sumSins g + Real.sin (degToRad o.windDirection) := by
  simp [sumSins]

lemma sumCoss_append (g : List WindObs) (o : WindObs) :
    sumCoss (g ++ [o]) = sumCoss g + Real.cos (degToRad o.windDirection) := by
  simp [sumCoss]

lemma bucketOfState_mkState (out : List WindBucket) (C : ℤ) (pend : List WindObs) :
    bucketOfState (mkState out C pend) = bucketFor C pend := rfl

lemma closeInterval_mkState (out : List WindBucket) (C : ℤ) (pend : List WindObs) :
    closeInterval (mkState out C pend) = mkState (out ++ emitOpt C pend) (C + intervalMs) [] := by
  by_cases h : pend = []
  · subst h
    simp [closeInterval, mkState, emitOpt, sumSpeeds, sumGusts, sumSins, sumCoss]
  · have hl : 0 < pend.length := List.length_pos.mpr h
    simp [closeInterval, mkState, emitOpt, h, hl, bucketOfState, bucketFor,
      sumSpeeds, sumGusts, sumSins, sumCoss]

lemma mkState_start (out : List WindBucket) (C : ℤ) (pend : List WindObs) :
    (mkState out C pend).currentIntervalStart = C := rfl

lemma advanceIntervals_unfold (t : ℤ) (st : AggState) :
    advanceIntervals t st =
      if st.currentIntervalStart + intervalMs ≤ t then advanceIntervals t (closeInterval st)
      else st := by
  rw [advanceIntervals]
  by_cases h : st.currentIntervalStart + intervalMs ≤ t
  · rw [dif_pos h, if_pos h]
  · rw [dif_neg h, if_neg h]

lemma advance_done (t : ℤ) (out : List WindBucket) (C : ℤ) (pend : List WindObs)
    (h : t < C + intervalMs) :
    advanceIntervals t (mkState out C pend) = mkState out C pend := by
  rw [advanceIntervals_unfold, mkState_start, if_neg (by omega)]

lemma advance_nil (t : ℤ) (k : ℕ) :
    ∀ (C : ℤ) (out : List WindBucket), (t + intervalMs - C).toNat ≤ k →
      advanceIntervals t (mkState out C []) =
        mkState out (if C + intervalMs ≤ t then nextGrid C t else C) [] := by
  induction k with
  | zero =>
    intro C out hk
    have h : ¬ (C + intervalMs ≤ t) := by
      simp only [intervalMs] at hk ⊢
      omega
    rw [advance_done t out C [] (by omega), if_neg h]
  | succ k ih =>
    intro C out hk
    by_cases h : C + intervalMs ≤ t
    · have hclose : closeInterval (mkState out C []) = mkState out (C + intervalMs) [] := by
        rw [closeInterval_mkState]
        simp [emitOpt]
      rw [advanceIntervals_unfold, mkState_start, if_pos h, hclose,
        ih (C + intervalMs) out (by simp only [intervalMs] at hk ⊢; omega)]
      congr 1
      rw [if_pos h]
      by_cases h2 : C + intervalMs + intervalMs ≤ t
      · rw [if_pos h2]
        simp only [nextGrid, intervalMs, fdiv_900000]
        omega
      · rw [if_neg h2]
        simp only [nextGrid, intervalMs, fdiv_900000] at *
        omega
    · rw [advance_done t out C [] (by omega), if_neg h]

lemma advance_mkState (t : ℤ) (out : List WindBucket) (C : ℤ) (pend : List WindObs)
    (h : C + intervalMs ≤ t) :
    advanceIntervals t (mkState out C pend) =
      mkState (out ++ emitOpt C pend) (nextGrid C t) [] := by
  rw [advanceIntervals_unfold, mkState_start, if_pos h, closeInterval_mkState,
    advance_nil t (t + intervalMs - (C + intervalMs)).toNat (C + intervalMs)
      (out ++ emitOpt C pend) le_rfl]
  congr 1
  by_cases h2 : C + intervalMs + intervalMs ≤ t
  · rw [if_pos h2]
    simp only [nextGrid, intervalMs, fdiv_900000]
    omega
  · rw [if_neg h2]
    simp only [nextGrid, intervalMs, fdiv_900000] at *
    omega

lemma accumulate_mkState (o : WindObs) (out : List WindBucket) (C : ℤ) (pend : List WindObs) :
    accumulate o (mkState out C pend) = mkState out C (pend ++ [o]) := by
  simp [accumulate, mkState, sumSpeeds_append, sumGusts_append, sumSins_append, sumCoss_append]

lemma aggStep_mkState (out : List WindBucket) (C : ℤ) (pend : List WindObs) (o : WindObs) :
    aggStep (mkState out C pend) o =
      if o.time < C + intervalMs then mkState out C (pend ++ [o])
      else mkState (out ++ emitOpt C pend) (nextGrid C o.time) [o] := by
  by_cases h : o.time < C + intervalMs
  · rw [if_pos h]
    unfold aggStep
    rw [advance_done o.time out C pend h, accumulate_mkState]
  · rw [if_neg h]
    unfold aggStep
    rw [advance_mkState o.time out C pend (by omega), accumulate_mkState]
    rfl

lemma finalFlush_mkState (out : List WindBucket) (C : ℤ) (pend : List WindObs) :
    finalFlush (mkState out C pend) = out ++ emitOpt C pend := by
  by_cases h : pend = []
  · subst h
    simp [finalFlush, mkState, emitOpt]
  · have hl : 0 < pend.length := List.length_pos.mpr h
    simp [finalFlush, mkState, emitOpt, h, hl, bucketOfState, bucketFor]

lemma runAgg_mkState (l : List WindObs) :
    ∀ (C : ℤ) (out : List WindBucket) (pend : List WindObs),
      finalFlush (runAgg (mkState out C pend) l) = out ++ bucketsFrom C pend l := by
  induction l with
  | nil =>
    intro C out pend
    simp only [runAgg, List.foldl_nil, bucketsFrom]
    exact finalFlush_mkState out C pend
  | cons o l ih =>
    intro C out pend
    have hstep : runAgg (mkState out C pend) (o :: l) =
        runAgg (aggStep (mkState out C pend) o) l := by
      simp [runAgg]
    rw [hstep, aggStep_mkState]
    by_cases h : o.time < C + intervalMs
    · rw [if_pos h, ih, bucketsFrom, if_pos h]
    · rw [if_neg h, ih, bucketsFrom, if_neg h, List.append_assoc]

lemma aggregatedWindData_eq (o : WindObs) (l : List WindObs) :
    aggregatedWindData (o :: l) =
      bucketsFrom (roundToNearestMinutes15 o.time) [] (o :: l) := by
  have hinit : initState o.time = mkState [] (roundToNearestMinutes15 o.time) [] := rfl
  rw [show aggregatedWindData (o :: l) = finalFlush (runAgg (initState o.time) (o :: l))
    from rfl, hinit, runAgg_mkState]
  simp

lemma lt_round15_add (t : ℤ) : t < roundToNearestMinutes15 t + intervalMs := by
  simp only [roundToNearestMinutes15, intervalMs, fdiv_900000]
  omega

lemma round15_le (t : ℤ) : roundToNearestMinutes15 t ≤ t + 450000 := by
  simp only [roundToNearestMinutes15, fdiv_900000]
  omega

lemma nextGrid_bounds (C t : ℤ) (h : C + intervalMs ≤ t) :
    C + intervalMs ≤ nextGrid C t ∧ nextGrid C t ≤ t ∧ t < nextGrid C t + intervalMs := by
  simp only [nextGrid, intervalMs, fdiv_900000] at *
  omega

lemma jsMod_eq_self (x : ℝ) (h0 : 0 ≤ x) (h1 : x < 360) : jsMod x 360 = x := by
  have hq0 : 0 ≤ x / 360 := by positivity
  have hq1 : x / 360 < 1 := by
    rw [div_lt_one (by norm_num)]
    exact h1
  have hfl : ⌊x / 360⌋ = 0 := Int.floor_eq_zero_iff.mpr ⟨hq0, hq1⟩
  simp [jsMod, jsTrunc, hq0, hfl]

lemma jsMod_shift (x : ℝ) (h0 : 360 ≤ x) (h1 : x < 720) : jsMod x 360 = x - 360 := by
  have hq0 : 0 ≤ x / 360 := by positivity
  have hfl : ⌊x / 360⌋ = 1 := by
    rw [Int.floor_eq_iff]
    constructor
    · push_cast
      rw [le_div_iff₀ (by norm_num : (0:ℝ) < 360)]
      linarith
    · push_cast
      rw [div_lt_iff₀ (by norm_num : (0:ℝ) < 360)]
      linarith
  simp [jsMod, jsTrunc, hq0, hfl]

lemma jsMod_mem_Ico (x : ℝ) (h0 : 0 ≤ x) : 0 ≤ jsMod x 360 ∧ jsMod x 360 < 360 := by
  have hq0 : 0 ≤ x / 360 := by positivity
  have hval : jsMod x 360 = 360 * Int.fract (x / 360) := by
    simp only [jsMod, jsTrunc, if_pos hq0, Int.fract]
    field_simp
  rw [hval]
  constructor
  · have := Int.fract_nonneg (x / 360)
    positivity
  · have := Int.fract_lt_one (x / 360)
    nlinarith

lemma atan2_sin_cos (θ : ℝ) (h : θ ∈ Set.Ioc (-Real.pi) Real.pi) :
    atan2 (Real.sin θ) (Real.cos θ) = θ := by
  unfold atan2
  rw [Complex.mk_eq_add_mul_I, Complex.ofReal_cos, Complex.ofReal_sin]
  exact Complex.arg_cos_add_sin_mul_I h

lemma jsMod_atan2_deg (d : ℚ) (h0 : 0 ≤ d) (h1 : d < 360) :
    jsMod (atan2 (Real.sin (degToRad d)) (Real.cos (degToRad d)) * 180 / Real.pi + 360) 360
      = (d : ℝ) := by
  have hd0 : (0:ℝ) ≤ (d:ℝ) := by exact_mod_cast h0
  have hd1 : (d:ℝ) < 360 := by exact_mod_cast h1
  have hpi := Real.pi_pos
  by_cases hmid : (d:ℝ) ≤ 180
  · have hθ : degToRad d ∈ Set.Ioc (-Real.pi) Real.pi := by
      constructor
      · have : (0:ℝ) ≤ degToRad d := by
          unfold degToRad
          positivity
        linarith
      · unfold degToRad
        rw [div_le_iff₀ (by norm_num : (0:ℝ) < 180)]
        nlinarith
    rw [atan2_sin_cos _ hθ]
    have hdeg : degToRad d * 180 / Real.pi = (d:ℝ) := by
      unfold degToRad
      field_simp
    rw [hdeg, jsMod_shift ((d:ℝ) + 360) (by linarith) (by linarith)]
    ring
  · push_neg at hmid
    have hsin : Real.sin (degToRad d) = Real.sin (degToRad d - 2 * Real.pi) := by
      have hp := Real.sin_periodic (degToRad d - 2 * Real.pi)
      rw [show degToRad d - 2 * Real.pi + 2 * Real.pi = degToRad d from by ring] at hp
      exact hp
    have hcos : Real.cos (degToRad d) = Real.cos (degToRad d - 2 * Real.pi) := by
      have hp := Real.cos_periodic (degToRad d - 2 * Real.pi)
      rw [show degToRad d - 2 * Real.pi + 2 * Real.pi = degToRad d from by ring] at hp
      exact hp
    have hθ : degToRad d - 2 * Real.pi ∈ Set.Ioc (-Real.pi) Real.pi := by
      unfold degToRad
      constructor
      · have : Real.pi < (d:ℝ) * Real.pi / 180 := by
          rw [lt_div_iff₀ (by norm_num : (0:ℝ) < 180)]
          nlinarith
        linarith
      · have : (d:ℝ) * Real.pi / 180 - 2 * Real.pi < 0 := by
          rw [sub_neg, div_lt_iff₀ (by norm_num : (0:ℝ) < 180)]
          nlinarith
        linarith
    rw [hsin, hcos, atan2_sin_cos _ hθ]
    have hdeg : (degToRad d - 2 * Real.pi) * 180 / Real.pi = (d:ℝ) - 360 := by
      unfold degToRad
      field_simp
      ring
    rw [hdeg, show (d:ℝ) - 360 + 360 = (d:ℝ) by ring,
      jsMod_eq_self (d:ℝ) hd0 hd1]

lemma adjusted_const (d : ℚ) (n : ℕ) (hn : 0 < n) (h0 : 0 ≤ d) (h1 : d < 360) :
    adjustedWindDirection ((n:ℝ) * Real.sin (degToRad d)) ((n:ℝ) * Real.cos (degToRad d)) n
      = (d : ℝ) := by
  have hne : (n:ℝ) ≠ 0 := Nat.cast_ne_zero.mpr hn.ne'
  unfold adjustedWindDirection avgWindDirection
  rw [mul_div_cancel_left₀ _ hne, mul_div_cancel_left₀ _ hne]
  exact jsMod_atan2_deg d h0 h1

lemma adjusted_single (d : ℚ) (h0 : 0 ≤ d) (h1 : d < 360) :
    adjustedWindDirection (Real.sin (degToRad d)) (Real.cos (degToRad d)) 1 = (d : ℝ) := by
  have := adjusted_const d 1 (by norm_num) h0 h1
  simpa using this

lemma adjusted_mem_Ico (s c : ℝ) (n : ℕ) :
    0 ≤ adjustedWindDirection s c n ∧ adjustedWindDirection s c n < 360 := by
  unfold adjustedWindDirection avgWindDirection atan2
  have h1 : -Real.pi < Complex.arg ⟨c / (n:ℝ), s / (n:ℝ)⟩ := Complex.neg_pi_lt_arg _
  have h2 : Complex.arg ⟨c / (n:ℝ), s / (n:ℝ)⟩ ≤ Real.pi := Complex.arg_le_pi _
  have hpi := Real.pi_pos
  apply jsMod_mem_Ico
  have hlow : (-180:ℝ) ≤ Complex.arg ⟨c / (n:ℝ), s / (n:ℝ)⟩ * 180 / Real.pi := by
    rw [le_div_iff₀ hpi]
    nlinarith
  linarith

lemma intervalMs_pos : (0:ℤ) < intervalMs := by norm_num [intervalMs]

lemma mem_emitOpt {B : WindBucket} {C : ℤ} {g : List WindObs} (h : B ∈ emitOpt C g) :
    g ≠ [] ∧ B = bucketFor C g := by
  unfold emitOpt at h
  by_cases hg : g = []
  · simp [hg] at h
  · rw [if_neg hg] at h
    simp only [List.mem_singleton] at h
    exact ⟨hg, h⟩

lemma bucketFor_time (C : ℤ) (g : List WindObs) : (bucketFor C g).time = C := rfl

lemma bucketsFrom_shape (l : List WindObs) : ∀ (C : ℤ) (pend : List WindObs) (B : WindBucket),
    B ∈ bucketsFrom C pend l → ∃ C' g, g ≠ [] ∧ B = bucketFor C' g := by
  induction l with
  | nil =>
    intro C pend B hB
    simp only [bucketsFrom] at hB
    obtain ⟨hg, hB2⟩ := mem_emitOpt hB
    exact ⟨C, pend, hg, hB2⟩
  | cons o l ih =>
    intro C pend B hB
    simp only [bucketsFrom] at hB
    by_cases h : o.time < C + intervalMs
    · rw [if_pos h] at hB
      exact ih _ _ _ hB
    · rw [if_neg h] at hB
      rcases List.mem_append.mp hB with h1 | h2
      · obtain ⟨hg, hB2⟩ := mem_emitOpt h1
        exact ⟨C, pend, hg, hB2⟩
      · exact ih _ _ _ h2

lemma bucketsFrom_times (l : List WindObs) : ∀ (C : ℤ) (pend : List WindObs),
    (∀ B ∈ bucketsFrom C pend l, C ≤ B.time) ∧
    List.Pairwise (fun a b : WindBucket => a.time < b.time) (bucketsFrom C pend l) := by
  induction l with
  | nil =>
    intro C pend
    constructor
    · intro B hB
      simp only [bucketsFrom] at hB
      obtain ⟨_, hB2⟩ := mem_emitOpt hB
      rw [hB2, bucketFor_time]
    · simp only [bucketsFrom]
      unfold emitOpt
      split <;> simp
  | cons o l ih =>
    intro C pend
    by_cases h : o.time < C + intervalMs
    · simp only [bucketsFrom, if_pos h]
      exact ih C (pend ++ [o])
    · have hge : C + intervalMs ≤ o.time := not_lt.mp h
      obtain ⟨hg1, hg2, hg3⟩ := nextGrid_bounds C o.time hge
      obtain ⟨ihle, ihpw⟩ := ih (nextGrid C o.time) [o]
      have hpos := intervalMs_pos
      simp only [bucketsFrom, if_neg h]
      constructor
      · intro B hB
        rcases List.mem_append.mp hB with h1 | h2
        · obtain ⟨_, hB2⟩ := mem_emitOpt h1
          rw [hB2, bucketFor_time]
        · have := ihle B h2
          linarith
      · rw [List.pairwise_append]
        refine ⟨?_, ihpw, ?_⟩
        · unfold emitOpt
          split <;> simp
        · intro a ha b hb
          obtain ⟨_, ha2⟩ := mem_emitOpt ha
          have hble := ihle b hb
          rw [ha2, bucketFor_time]
          linarith

lemma bucketsFrom_all_first (l : List WindObs) : ∀ (C : ℤ) (pend : List WindObs),
    (∀ x ∈ l, x.time < C + intervalMs) → bucketsFrom C pend l = emitOpt C (pend ++ l) := by
  induction l with
  | nil =>
    intro C pend _
    simp [bucketsFrom]
  | cons o l ih =>
    intro C pend hall
    have h : o.time < C + intervalMs := hall o (by simp)
    simp only [bucketsFrom, if_pos h]
    rw [ih C (pend ++ [o]) (fun x hx => hall x (by simp [hx]))]
    congr 1
    simp

lemma bucketsFrom_head (l : List WindObs) : ∀ (C : ℤ) (pend : List WindObs), pend ≠ [] →
    ∃ g, (bucketsFrom C pend l).head? = some (bucketFor C g) := by
  induction l with
  | nil =>
    intro C pend hp
    refine ⟨pend, ?_⟩
    simp [bucketsFrom, emitOpt, hp]
  | cons o l ih =>
    intro C pend hp
    by_cases h : o.time < C + intervalMs
    · simp only [bucketsFrom, if_pos h]
      exact ih C (pend ++ [o]) (by simp)
    · simp only [bucketsFrom, if_neg h, emitOpt, hp, if_false]
      exact ⟨pend, by simp [hp]⟩

lemma bucketsFrom_window (l : List WindObs) : ∀ (C : ℤ) (pend : List WindObs),
    List.Pairwise (fun a b : WindObs => a.time ≤ b.time) (pend ++ l) →
    (∀ p ∈ pend, p.time < C + intervalMs) →
    ∀ B ∈ bucketsFrom C pend l,
      (B.time = C ∧
        B = bucketFor C (pend ++ l.filter (fun x => decide (x.time < C + intervalMs))) ∧
        pend ++ l.filter (fun x => decide (x.time < C + intervalMs)) ≠ []) ∨
      (C + intervalMs ≤ B.time ∧
        B = bucketFor B.time (l.filter (inWindow B.time)) ∧
        l.filter (inWindow B.time) ≠ []) := by
  induction l with
  | nil =>
    intro C pend _ _ B hB
    simp only [bucketsFrom] at hB
    obtain ⟨hg, hB2⟩ := mem_emitOpt hB
    left
    refine ⟨by rw [hB2, bucketFor_time], ?_, ?_⟩
    · simpa using hB2
    · simpa using hg
  | cons o l ih =>
    intro C pend hsort hpend B hB
    have hpos := intervalMs_pos
    simp only [bucketsFrom] at hB
    by_cases h : o.time < C + intervalMs
    · rw [if_pos h] at hB
      have hsort' :
          List.Pairwise (fun a b : WindObs => a.time ≤ b.time) ((pend ++ [o]) ++ l) := by
        simpa [List.append_assoc] using hsort
      have hpend' : ∀ p ∈ pend ++ [o], p.time < C + intervalMs := by
        intro p hp
        rcases List.mem_append.mp hp with h1 | h2
        · exact hpend p h1
        · simp only [List.mem_singleton] at h2
          rw [h2]
          exact h
      rcases ih C (pend ++ [o]) hsort' hpend' B hB with ⟨ht, hBe, hne⟩ | ⟨hge, hBe, hne⟩
      · left
        have hfe : (pend ++ [o]) ++ l.filter (fun x => decide (x.time < C + intervalMs))
            = pend ++ (o :: l).filter (fun x => decide (x.time < C + intervalMs)) := by
          simp [List.filter_cons, h]
        rw [← hfe]
        exact ⟨ht, hBe, hne⟩
      · right
        have hno : ¬ (B.time ≤ o.time) := by linarith
        have hfo : (o :: l).filter (inWindow B.time) = l.filter (inWindow B.time) := by
          simp [List.filter_cons, inWindow, hno]
        rw [hfo]
        exact ⟨hge, hBe, hne⟩
    · rw [if_neg h] at hB
      have hge : C + intervalMs ≤ o.time := not_lt.mp h
      obtain ⟨hg1, hg2, hg3⟩ := nextGrid_bounds C o.time hge
      obtain ⟨hsp, hsol, hcrossp⟩ := List.pairwise_append.mp hsort
      obtain ⟨hole, hsl⟩ := List.pairwise_cons.mp hsol
      rcases List.mem_append.mp hB with h1 | h2
      · obtain ⟨hgne, hB2⟩ := mem_emitOpt h1
        left
        have hfe : (o :: l).filter (fun x => decide (x.time < C + intervalMs)) = [] := by
          rw [List.filter_eq_nil_iff]
          intro x hx
          simp only [decide_eq_true_eq]
          rcases List.mem_cons.mp hx with h3 | h3
          · rw [h3]
            exact h
          · have := hole x h3
            intro hcon
            have : o.time < C + intervalMs := by linarith
            exact h this
        rw [hfe]
        exact ⟨by rw [hB2, bucketFor_time], by simpa using hB2, by simpa using hgne⟩
      · have hsort2 : List.Pairwise (fun a b : WindObs => a.time ≤ b.time) ([o] ++ l) := by
          simpa using hsol
        have hpend2 : ∀ p ∈ [o], p.time < nextGrid C o.time + intervalMs := by
          intro p hp
          simp only [List.mem_singleton] at hp
          rw [hp]
          exact hg3
        rcases ih (nextGrid C o.time) [o] hsort2 hpend2 B h2 with
          ⟨ht, hBe, hne⟩ | ⟨hge2, hBe, hne⟩
        · right
          have hfo : (o :: l).filter (inWindow (nextGrid C o.time))
              = o :: l.filter (inWindow (nextGrid C o.time)) := by
            simp [List.filter_cons, inWindow, hg2, hg3]
          have hfl : l.filter (inWindow (nextGrid C o.time))
              = l.filter (fun x => decide (x.time < nextGrid C o.time + intervalMs)) := by
            apply List.filter_congr
            intro x hx
            have hcx : nextGrid C o.time ≤ x.time := le_trans hg2 (hole x hx)
            simp [inWindow, hcx]
          refine ⟨by rw [ht]; exact hg1, ?_, ?_⟩
          · rw [ht, hfo, hfl]
            simpa using hBe
          · rw [ht, hfo]
            simp
        · right
          have hno : ¬ (B.time ≤ o.time) := by linarith
          have hfo : (o :: l).filter (inWindow B.time) = l.filter (inWindow B.time) := by
            simp [List.filter_cons, inWindow, hno]
          refine ⟨by linarith, ?_, ?_⟩
          · rw [hfo]
            exact hBe
          · rw [hfo]
            exact hne

lemma atan2_zero_pos (c : ℝ) (hc : 0 ≤ c) : atan2 0 c = 0 := by
  unfold atan2
  rw [show (⟨c, 0⟩ : ℂ) = (c : ℂ) from rfl]
  exact Complex.arg_ofReal_of_nonneg hc

lemma jsMod_360_360 : jsMod 360 360 = 0 := by
  rw [jsMod_shift 360 le_rfl (by norm_num)]
  norm_num

lemma adjusted_zero_sin (c : ℝ) (hc : 0 ≤ c) (n : ℕ) :
    adjustedWindDirection 0 c n = 0 := by
  unfold adjustedWindDirection avgWindDirection
  rw [zero_div, atan2_zero_pos _ (div_nonneg hc (by positivity))]
  rw [zero_mul, zero_div, zero_add]
  exact jsMod_360_360

lemma jsMod_of_neg (x : ℝ) (h1 : -360 < x) (h2 : x < 0) : jsMod x 360 = x := by
  have hq : ¬ (0 ≤ x / 360) := by
    push_neg
    exact div_neg_of_neg_of_pos h2 (by norm_num)
  have hceil : ⌈x / 360⌉ = 0 := by
    rw [Int.ceil_eq_zero_iff]
    constructor
    · show (-1 : ℝ) < x / 360
      rw [lt_div_iff₀ (by norm_num : (0:ℝ) < 360)]
      linarith
    · exact le_of_lt (div_neg_of_neg_of_pos h2 (by norm_num))
  simp [jsMod, jsTrunc, hq, hceil]

lemma agg_replicate (n : ℕ) (hn : 0 < n) (o : WindObs)
    (h0 : 0 ≤ o.windDirection) (h1 : o.windDirection < 360) :
    aggregatedWindData (List.replicate n o) =
      [⟨roundToNearestMinutes15 o.time, o.windSpeed, o.windGust, (o.windDirection : ℝ),
        false⟩] := by
  obtain ⟨m, rfl⟩ : ∃ m, n = m + 1 := ⟨n - 1, by omega⟩
  have hcons : List.replicate (m + 1) o = o :: List.replicate m o := List.replicate_succ o m
  rw [hcons, aggregatedWindData_eq]
  have hall : ∀ x ∈ o :: List.replicate m o,
      x.time < roundToNearestMinutes15 o.time + intervalMs := by
    intro x hx
    have hxo : x = o := by
      rcases List.mem_cons.mp hx with h | h
      · exact h
      · exact List.eq_of_mem_replicate h
    rw [hxo]
    exact lt_round15_add o.time
  rw [bucketsFrom_all_first (o :: List.replicate m o) (roundToNearestMinutes15 o.time) [] hall,
    List.nil_append, ← hcons]
  unfold emitOpt
  rw [if_neg (by simp)]
  have hlen : (List.replicate (m + 1) o).length = m + 1 := List.length_replicate (m + 1) o
  have hspeed : sumSpeeds (List.replicate (m + 1) o)
      / ((List.replicate (m + 1) o).length : ℚ) = o.windSpeed := by
    simp only [sumSpeeds, List.map_replicate, List.sum_replicate, nsmul_eq_mul, hlen]
    push_cast
    field_simp
  have hgust : sumGusts (List.replicate (m + 1) o)
      / ((List.replicate (m + 1) o).length : ℚ) = o.windGust := by
    simp only [sumGusts, List.map_replicate, List.sum_replicate, nsmul_eq_mul, hlen]
    push_cast
    field_simp
  have hdir : adjustedWindDirection (sumSins (List.replicate (m + 1) o))
      (sumCoss (List.replicate (m + 1) o)) (List.replicate (m + 1) o).length
      = (o.windDirection : ℝ) := by
    have hs : sumSins (List.replicate (m + 1) o)
        = ((m + 1 : ℕ) : ℝ) * Real.sin (degToRad o.windDirection) := by
      simp [sumSins, List.map_replicate, List.sum_replicate, nsmul_eq_mul]
    have hc : sumCoss (List.replicate (m + 1) o)
        = ((m + 1 : ℕ) : ℝ) * Real.cos (degToRad o.windDirection) := by
      simp [sumCoss, List.map_replicate, List.sum_replicate, nsmul_eq_mul]
    rw [hs, hc, hlen]
    exact adjusted_const o.windDirection (m + 1) (by omega) h0 h1
  refine congrArg (fun b => [b]) ?_
  unfold bucketFor
  rw [hspeed, hgust, hdir]

lemma agg_single (t : ℤ) (s g : ℚ) :
    aggregatedWindData [⟨t, s, g, 0⟩] =
      [⟨roundToNearestMinutes15 t, s, g, 0, false⟩] := by
  have := agg_replicate 1 (by norm_num) ⟨t, s, g, 0⟩ (by norm_num) (by norm_num)
  simpa using this

lemma bucketFor_single (C : ℤ) (o : WindObs) :
    bucketFor C [o] = ⟨C, o.windSpeed, o.windGust,
      adjustedWindDirection (Real.sin (degToRad o.windDirection))
        (Real.cos (degToRad o.windDirection)) 1, false⟩ := by
  unfold bucketFor
  simp [sumSpeeds, sumGusts, sumSins, sumCoss]

lemma emitOpt_single (C : ℤ) (o : WindObs) : emitOpt C [o] = [bucketFor C [o]] := by
  unfold emitOpt
  rw [if_neg (by simp)]

lemma degToRad_zero : degToRad 0 = 0 := by
  unfold degToRad
  push_cast
  ring

lemma adjusted_single_zero :
    adjustedWindDirection (Real.sin (degToRad 0)) (Real.cos (degToRad 0)) 1 = 0 := by
  rw [degToRad_zero, Real.sin_zero, Real.cos_zero]
  exact adjusted_zero_sin 1 (by norm_num) 1

/-- Claim C1 counterexample: for the single observation at 00:08:00 with
direction 360°, the code puts the bucket at 00:15:00 (round-to-nearest), not
at the floored boundary 00:00:00 claimed by the spec, and normalises the
direction 360 to 0 rather than reproducing it. -/
theorem claim_C1_counterexample :
    aggregatedWindData demoC1 = [⟨900000, 5, 7, 0, false⟩] ∧
    floorTo15 480000 = 0 ∧ ¬ ((900000 : ℤ) = floorTo15 480000) ∧ ¬ ((0:ℝ) = 360) := by
  refine ⟨?_, by decide, by decide, by norm_num⟩
  rw [show demoC1 = (⟨480000, 5, 7, 360⟩ : WindObs) :: [] from rfl, aggregatedWindData_eq,
    show roundToNearestMinutes15 480000 = 900000 from by decide]
  rw [bucketsFrom, if_pos (by norm_num [intervalMs]), List.nil_append, bucketsFrom,
    emitOpt_single, bucketFor_single]
  have h360 : degToRad 360 = 2 * Real.pi := by
    unfold degToRad
    push_cast
    ring
  rw [h360, Real.sin_two_pi, Real.cos_two_pi, adjusted_zero_sin 1 (by norm_num) 1]

/-- Claim C1 (amended): the first emitted bucket's `intervalStart` is the
first observation's time rounded half-up to the nearest 15-minute boundary
(date-fns `roundToNearestMinutes`, not a floor); a single observation with
direction in `[0, 360)` yields exactly one bucket carrying its values. -/
theorem claim_C1_theorem :
    (∀ (o : WindObs) (l : List WindObs),
      (aggregatedWindData (o :: l)).head?.map WindBucket.time
        = some (roundToNearestMinutes15 o.time)) ∧
    (∀ p : WindObs, 0 ≤ p.windDirection → p.windDirection < 360 →
      aggregatedWindData [p] =
        [⟨roundToNearestMinutes15 p.time, p.windSpeed, p.windGust,
          (p.windDirection : ℝ), false⟩]) := by
  constructor
  · intro o l
    rw [aggregatedWindData_eq, bucketsFrom, if_pos (lt_round15_add o.time),
      List.nil_append]
    obtain ⟨g, hg⟩ := bucketsFrom_head l (roundToNearestMinutes15 o.time) [o] (by simp)
    rw [hg]
    simp [bucketFor_time]
  · intro p h0 h1
    have := agg_replicate 1 (by norm_num) p h0 h1
    simpa using this

/-- Claim C1 witness. -/
theorem claim_C1_witness :
    aggregatedWindData [⟨0, 5, 7, 90⟩] = [⟨0, 5, 7, 90, false⟩] := by
  have h := claim_C1_theorem.2 ⟨0, 5, 7, 90⟩ (by decide) (by decide)
  simpa [show roundToNearestMinutes15 0 = 0 from by decide] using h

/-- Claim C2 counterexample: the single observation at 00:08:00 lands in the
bucket with `intervalStart` 00:15:00, whose half-open window
`[00:15, 00:30)` contains no observation at all — so the bucket's mean is
not the mean over the observations of its window. -/
theorem claim_C2_counterexample :
    aggregatedWindData demoC2 = [⟨900000, 5, 7, 90, false⟩] ∧
    demoC2.filter (inWindow 900000) = [] ∧
    ¬ ((5:ℚ) = meanSpeed (demoC2.filter (inWindow 900000))) := by
  refine ⟨?_, by decide, ?_⟩
  case refine_2 =>
    have hfil : demoC2.filter (inWindow 900000) = [] := by decide
    rw [hfil]
    norm_num [meanSpeed, sumSpeeds]
  have h := agg_replicate 1 (by norm_num) ⟨480000, 5, 7, 90⟩ (by decide) (by decide)
  rw [show demoC2 = [⟨480000, 5, 7, 90⟩] from rfl]
  simpa [show roundToNearestMinutes15 480000 = 900000 from by decide] using h

/-- Claim C2 (amended): for sorted input, every bucket other than the first
aggregates exactly the observations of its half-open window
`[intervalStart, intervalStart + 15min)` (an observation at exactly
`intervalStart + 15min` goes to a later bucket); the first bucket instead
aggregates every observation before `intervalStart + 15min`, its window
reaching up to 7.5 minutes before `intervalStart` because the start is
rounded to nearest rather than floored. -/
theorem claim_C2_theorem : ∀ (o : WindObs) (l : List WindObs),
    List.Sorted (fun a b : WindObs => a.time ≤ b.time) (o :: l) →
    ∀ B ∈ aggregatedWindData (o :: l),
      (roundToNearestMinutes15 o.time + intervalMs ≤ B.time →
        B.windSpeed = meanSpeed ((o :: l).filter (inWindow B.time)) ∧
        B.windGust = meanGust ((o :: l).filter (inWindow B.time)) ∧
        (o :: l).filter (inWindow B.time) ≠ []) ∧
      (B.time = roundToNearestMinutes15 o.time →
        B.windSpeed = meanSpeed ((o :: l).filter
          (fun x => decide (x.time < roundToNearestMinutes15 o.time + intervalMs))) ∧
        B.windGust = meanGust ((o :: l).filter
          (fun x => decide (x.time < roundToNearestMinutes15 o.time + intervalMs))) ∧
        (o :: l).filter
          (fun x => decide (x.time < roundToNearestMinutes15 o.time + intervalMs)) ≠ []) ∧
      (B.time = roundToNearestMinutes15 o.time ∨
        roundToNearestMinutes15 o.time + intervalMs ≤ B.time) := by
  intro o l hsort B hB
  have hpos := intervalMs_pos
  rw [aggregatedWindData_eq] at hB
  have hwin := bucketsFrom_window (o :: l) (roundToNearestMinutes15 o.time) []
    (by simpa using hsort) (by simp) B hB
  rcases hwin with ⟨ht, hBe, hne⟩ | ⟨hge, hBe, hne⟩
  · refine ⟨?_, ?_, Or.inl ht⟩
    · intro hcon
      rw [ht] at hcon
      linarith
    · intro _
      rw [List.nil_append] at hBe hne
      exact ⟨by rw [hBe]; rfl, by rw [hBe]; rfl, hne⟩
  · refine ⟨?_, ?_, Or.inr hge⟩
    · intro _
      exact ⟨by rw [hBe]; rfl, by rw [hBe]; rfl, hne⟩
    · intro hcon
      rw [hcon] at hge
      linarith

/-- Claim C2 witness. -/
theorem claim_C2_witness :
    (⟨0, 2, 3, 0, false⟩ : WindBucket).windSpeed
      = meanSpeed (([⟨0, 2, 3, 0⟩] : List WindObs).filter
          (fun x => decide (x.time < roundToNearestMinutes15 0 + intervalMs))) := by
  have hmem : (⟨0, 2, 3, 0, false⟩ : WindBucket) ∈ aggregatedWindData [⟨0, 2, 3, 0⟩] := by
    rw [show aggregatedWindData [⟨0, 2, 3, 0⟩]
      = [⟨roundToNearestMinutes15 0, 2, 3, 0, false⟩] from agg_single 0 2 3,
      show roundToNearestMinutes15 0 = 0 from by decide]
    simp
  have h := (claim_C2_theorem ⟨0, 2, 3, 0⟩ [] (by simp) _ hmem).2.1
    (by rw [show roundToNearestMinutes15 0 = 0 from by decide])
  exact h.1

lemma agg_pair_350_10 (t1 t2 : ℤ) (s g d1 d2 : ℚ)
    (hle : t1 ≤ t2) (hfl : floorTo15 t1 = floorTo15 t2)
    (hd : (d1 = 350 ∧ d2 = 10) ∨ (d1 = 10 ∧ d2 = 350)) :
    aggregatedWindData [⟨t1, s, g, d1⟩, ⟨t2, s, g, d2⟩]
      = [⟨roundToNearestMinutes15 t1, s, g, 0, false⟩] := by
  rw [show ([⟨t1, s, g, d1⟩, ⟨t2, s, g, d2⟩] : List WindObs)
      = (⟨t1, s, g, d1⟩ : WindObs) :: [⟨t2, s, g, d2⟩] from rfl, aggregatedWindData_eq]
  have ht2 : t2 < roundToNearestMinutes15 t1 + intervalMs := by
    simp only [floorTo15, roundToNearestMinutes15, intervalMs, fdiv_900000] at hfl ⊢
    omega
  have hall : ∀ x ∈ (⟨t1, s, g, d1⟩ : WindObs) :: [⟨t2, s, g, d2⟩],
      x.time < roundToNearestMinutes15 t1 + intervalMs := by
    intro x hx
    rcases List.mem_cons.mp hx with h | h
    · rw [h]
      exact lt_round15_add t1
    · simp only [List.mem_singleton] at h
      rw [h]
      exact ht2
  rw [bucketsFrom_all_first _ _ [] hall, List.nil_append]
  unfold emitOpt
  rw [if_neg (by simp)]
  refine congrArg (fun b => [b]) ?_
  have h350 : degToRad 350 = -(degToRad 10) + 2 * Real.pi := by
    unfold degToRad
    push_cast
    ring
  have hsin : sumSins [⟨t1, s, g, d1⟩, ⟨t2, s, g, d2⟩] = 0 := by
    simp only [sumSins, List.map_cons, List.map_nil, List.sum_cons, List.sum_nil]
    rcases hd with ⟨h1, h2⟩ | ⟨h1, h2⟩ <;>
      · rw [h1, h2, h350, Real.sin_periodic, Real.sin_neg]
        ring
  have hcos : sumCoss [⟨t1, s, g, d1⟩, ⟨t2, s, g, d2⟩]
      = 2 * Real.cos (degToRad 10) := by
    simp only [sumCoss, List.map_cons, List.map_nil, List.sum_cons, List.sum_nil]
    rcases hd with ⟨h1, h2⟩ | ⟨h1, h2⟩ <;>
      · rw [h1, h2, h350, Real.cos_periodic, Real.cos_neg]
        ring
  have hcpos : (0:ℝ) ≤ 2 * Real.cos (degToRad 10) := by
    have h10 : degToRad 10 ∈ Set.Ioo (-(Real.pi / 2)) (Real.pi / 2) := by
      unfold degToRad
      push_cast
      constructor <;> nlinarith [Real.pi_pos]
    have := Real.cos_pos_of_mem_Ioo h10
    linarith
  unfold bucketFor
  rw [hsin, hcos, adjusted_zero_sin _ hcpos _]
  simp only [WindBucket.mk.injEq, sumSpeeds, sumGusts, List.map_cons, List.map_nil,
    List.sum_cons, List.sum_nil, List.length_cons, List.length_nil, add_zero,
    true_and, and_true]
  push_cast
  constructor <;> ring

/-- Claim C3: any two observations with directions 350° and 10° and equal
speed and gust falling in the same 15-minute interval (in either order of
the sorted input) produce a single bucket whose circular mean direction is
exactly 0 over the reals, not 180. -/
theorem claim_C3_theorem : ∀ (t1 t2 : ℤ) (s g : ℚ), t1 ≤ t2 →
    floorTo15 t1 = floorTo15 t2 →
    (aggregatedWindData [⟨t1, s, g, 350⟩, ⟨t2, s, g, 10⟩]
        = [⟨roundToNearestMinutes15 t1, s, g, 0, false⟩] ∧
      aggregatedWindData [⟨t1, s, g, 10⟩, ⟨t2, s, g, 350⟩]
        = [⟨roundToNearestMinutes15 t1, s, g, 0, false⟩]) ∧
    ¬ ((0:ℝ) = 180) := by
  intro t1 t2 s g hle hfl
  exact ⟨⟨agg_pair_350_10 t1 t2 s g 350 10 hle hfl (Or.inl ⟨rfl, rfl⟩),
    agg_pair_350_10 t1 t2 s g 10 350 hle hfl (Or.inr ⟨rfl, rfl⟩)⟩, by norm_num⟩

/-- Claim C3 witness. -/
theorem claim_C3_witness :
    aggregatedWindData [⟨0, 5, 7, 350⟩, ⟨60000, 5, 7, 10⟩] = [⟨0, 5, 7, 0, false⟩] := by
  have h := (claim_C3_theorem 0 60000 5 7 (by decide) (by decide)).1.1
  simpa [show roundToNearestMinutes15 0 = 0 from by decide] using h

/-- Claim C4: for sorted input the emitted buckets' `intervalStart` values
are strictly increasing (pairwise, hence no duplicates and in order). -/
theorem claim_C4_theorem : ∀ l : List WindObs,
    List.Sorted (fun a b : WindObs => a.time ≤ b.time) l →
    List.Pairwise (fun a b : WindBucket => a.time < b.time) (aggregatedWindData l) := by
  intro l _
  cases l with
  | nil => simp [aggregatedWindData]
  | cons o l =>
    rw [aggregatedWindData_eq]
    exact (bucketsFrom_times (o :: l) (roundToNearestMinutes15 o.time) []).2

/-- Claim C4 witness. -/
theorem claim_C4_witness :
    List.Pairwise (fun a b : WindBucket => a.time < b.time)
      (aggregatedWindData [⟨0, 1, 1, 0⟩, ⟨3600000, 1, 1, 0⟩]) :=
  claim_C4_theorem [⟨0, 1, 1, 0⟩, ⟨3600000, 1, 1, 0⟩] (by simp)

/-- Claim C5: observations at 00:00 and 01:00 produce exactly two buckets,
at 00:00 and 01:00, with no buckets for the empty intervals between; an
off-grid later observation (01:10) still lands in the grid-aligned bucket
01:00 (the grid is not re-based on its own rounded time 01:15). -/
theorem claim_C5_theorem :
    aggregatedWindData demoC5a = [⟨0, 5, 7, 0, false⟩, ⟨3600000, 5, 7, 0, false⟩] ∧
    aggregatedWindData demoC5b = [⟨0, 5, 7, 0, false⟩, ⟨3600000, 5, 7, 0, false⟩] ∧
    roundToNearestMinutes15 4200000 = 4500000 ∧ ¬ ((3600000 : ℤ) = 4500000) := by
  have hb1 : bucketFor 0 [(⟨0, 5, 7, 0⟩ : WindObs)] = ⟨0, 5, 7, 0, false⟩ := by
    rw [bucketFor_single]
    simp only [adjusted_single_zero]
  have hstep : ∀ t : ℤ, intervalMs ≤ t →
      ∀ o2 : WindObs, o2.time = t →
      bucketsFrom 0 [] [(⟨0, 5, 7, 0⟩ : WindObs), o2] =
        [bucketFor 0 [⟨0, 5, 7, 0⟩], bucketFor (nextGrid 0 t) [o2]] := by
    intro t ht o2 ho2
    rw [bucketsFrom, if_pos (by norm_num [intervalMs]), List.nil_append, bucketsFrom, ho2,
      if_neg (by simp only [intervalMs] at *; omega), bucketsFrom, emitOpt_single,
      emitOpt_single]
    rfl
  refine ⟨?_, ?_, by decide, by decide⟩
  · rw [show demoC5a = (⟨0, 5, 7, 0⟩ : WindObs) :: [⟨3600000, 5, 7, 0⟩] from rfl,
      aggregatedWindData_eq, show roundToNearestMinutes15 0 = 0 from by decide,
      hstep 3600000 (by norm_num [intervalMs]) ⟨3600000, 5, 7, 0⟩ rfl,
      show nextGrid 0 3600000 = 3600000 from by decide, hb1, bucketFor_single]
    simp only [adjusted_single_zero]
  · rw [show demoC5b = (⟨0, 5, 7, 0⟩ : WindObs) :: [⟨4200000, 5, 7, 0⟩] from rfl,
      aggregatedWindData_eq, show roundToNearestMinutes15 0 = 0 from by decide,
      hstep 4200000 (by norm_num [intervalMs]) ⟨4200000, 5, 7, 0⟩ rfl,
      show nextGrid 0 4200000 = 3600000 from by decide, hb1, bucketFor_single]
    simp only [adjusted_single_zero]

/-- Claim C6: every emitted bucket's direction lies in `[0, 360)`, and on
atan2's degree range `[-180, 180]` the code's single-mod normalisation
`(x + 360) % 360` agrees with the spec's
`normalize360(x) = ((x % 360) + 360) % 360`. -/
theorem claim_C6_theorem :
    (∀ (l : List WindObs), ∀ B ∈ aggregatedWindData l,
      0 ≤ B.windDirection ∧ B.windDirection < 360) ∧
    (∀ x : ℝ, -180 ≤ x → x ≤ 180 → specNormalize360 x = jsMod (x + 360) 360) := by
  constructor
  · intro l B hB
    cases l with
    | nil => simp [aggregatedWindData] at hB
    | cons o l =>
      rw [aggregatedWindData_eq] at hB
      obtain ⟨C', g, _, hBe⟩ := bucketsFrom_shape (o :: l) _ [] B hB
      rw [hBe]
      exact adjusted_mem_Ico (sumSins g) (sumCoss g) g.length
  · intro x hx1 hx2
    have hfix : jsMod x 360 = x := by
      rcases le_or_lt 0 x with h | h
      · exact jsMod_eq_self x h (by linarith)
      · exact jsMod_of_neg x (by linarith) h
    unfold specNormalize360
    rw [hfix]

/-- Claim C6 witness. -/
theorem claim_C6_witness :
    (0 ≤ (⟨0, 4, 6, 0, false⟩ : WindBucket).windDirection ∧
      (⟨0, 4, 6, 0, false⟩ : WindBucket).windDirection < 360) ∧
    specNormalize360 90 = jsMod (90 + 360) 360 := by
  constructor
  · refine claim_C6_theorem.1 [⟨0, 4, 6, 0⟩] _ ?_
    rw [show aggregatedWindData [⟨0, 4, 6, 0⟩]
      = [⟨roundToNearestMinutes15 0, 4, 6, 0, false⟩] from agg_single 0 4 6,
      show roundToNearestMinutes15 0 = 0 from by decide]
    simp
  · exact claim_C6_theorem.2 90 (by norm_num) (by norm_num)

/-- Claim C7 counterexample: the observation at 00:08:00 produces a bucket
at 00:15:00 whose own half-open window `[00:15, 00:30)` contains no
observation — refuting that a bucket is emitted only for windows containing
at least one observation. -/
theorem claim_C7_counterexample :
    aggregatedWindData demoC7 = [⟨900000, 3, 4, 0, false⟩] ∧
    demoC7.filter (inWindow 900000) = [] := by
  refine ⟨?_, by decide⟩
  rw [show demoC7 = [⟨480000, 3, 4, 0⟩] from rfl,
    show aggregatedWindData [⟨480000, 3, 4, 0⟩]
      = [⟨roundToNearestMinutes15 480000, 3, 4, 0, false⟩] from agg_single 480000 3 4,
    show roundToNearestMinutes15 480000 = 900000 from by decide]

/-- Claim C7 (amended): the empty input yields the empty output, and every
emitted bucket aggregates at least one observation, which lies within
`[intervalStart - 7.5min, intervalStart + 15min)` — the 7.5-minute margin
before `intervalStart` arises for the first bucket because its start is
rounded to nearest rather than floored; the output is never padded. -/
theorem claim_C7_theorem :
    aggregatedWindData ([] : List WindObs) = [] ∧
    ∀ (o : WindObs) (l : List WindObs),
      List.Sorted (fun a b : WindObs => a.time ≤ b.time) (o :: l) →
      ∀ B ∈ aggregatedWindData (o :: l),
        ∃ p ∈ o :: l, B.time - 450000 ≤ p.time ∧ p.time < B.time + intervalMs := by
  refine ⟨rfl, ?_⟩
  intro o l hsort B hB
  rw [aggregatedWindData_eq] at hB
  have hwin := bucketsFrom_window (o :: l) (roundToNearestMinutes15 o.time) []
    (by simpa using hsort) (by simp) B hB
  have hr := round15_le o.time
  have hsorted : ∀ p ∈ o :: l, o.time ≤ p.time := by
    intro p hp
    rcases List.mem_cons.mp hp with h | h
    · rw [h]
    · exact (List.pairwise_cons.mp hsort).1 p h
  rcases hwin with ⟨ht, _, hne⟩ | ⟨_, _, hne⟩
  · rw [List.nil_append] at hne
    obtain ⟨p, hp⟩ := List.exists_mem_of_ne_nil _ hne
    obtain ⟨hpmem, hppred⟩ := List.mem_filter.mp hp
    refine ⟨p, hpmem, ?_, ?_⟩
    · have := hsorted p hpmem
      omega
    · rw [ht]
      simpa using hppred
  · obtain ⟨p, hp⟩ := List.exists_mem_of_ne_nil _ hne
    obtain ⟨hpmem, hppred⟩ := List.mem_filter.mp hp
    have hw : B.time ≤ p.time ∧ p.time < B.time + intervalMs := by
      simpa [inWindow] using hppred
    exact ⟨p, hpmem, by omega, hw.2⟩

/-- Claim C7 witness. -/
theorem claim_C7_witness :
    ∃ p ∈ ([⟨0, 2, 5, 0⟩] : List WindObs),
      (⟨0, 2, 5, 0, false⟩ : WindBucket).time - 450000 ≤ p.time ∧
      p.time < (⟨0, 2, 5, 0, false⟩ : WindBucket).time + intervalMs := by
  refine claim_C7_theorem.2 ⟨0, 2, 5, 0⟩ [] (by simp) _ ?_
  rw [show aggregatedWindData [⟨0, 2, 5, 0⟩]
    = [⟨roundToNearestMinutes15 0, 2, 5, 0, false⟩] from agg_single 0 2 5,
    show roundToNearestMinutes15 0 = 0 from by decide]
  simp

/-- Claim C8 counterexample: two identical observations with direction 450°
yield a bucket whose mean direction is 90, not the observation's own 450 —
the direction is normalised, so out-of-range directions are not reproduced. -/
theorem claim_C8_counterexample :
    aggregatedWindData (List.replicate 2 ⟨0, 5, 7, 450⟩) = [⟨0, 5, 7, 90, false⟩] ∧
    ¬ ((90:ℝ) = 450) := by
  refine ⟨?_, by norm_num⟩
  rw [show List.replicate 2 (⟨0, 5, 7, 450⟩ : WindObs)
      = (⟨0, 5, 7, 450⟩ : WindObs) :: [⟨0, 5, 7, 450⟩] from rfl,
    aggregatedWindData_eq, show roundToNearestMinutes15 0 = 0 from by decide]
  have hall : ∀ x ∈ (⟨0, 5, 7, 450⟩ : WindObs) :: [⟨0, 5, 7, 450⟩],
      x.time < 0 + intervalMs := by
    intro x hx
    have : x = ⟨0, 5, 7, 450⟩ := by
      rcases List.mem_cons.mp hx with h | h
      · exact h
      · simpa using h
    rw [this]
    norm_num [intervalMs]
  rw [bucketsFrom_all_first _ 0 [] hall, List.nil_append]
  unfold emitOpt
  rw [if_neg (by simp)]
  refine congrArg (fun b => [b]) ?_
  have h450 : degToRad 450 = Real.pi / 2 + 2 * Real.pi := by
    unfold degToRad
    push_cast
    ring
  have hsin : sumSins [(⟨0, 5, 7, 450⟩ : WindObs), ⟨0, 5, 7, 450⟩] = 2 := by
    simp only [sumSins, List.map_cons, List.map_nil, List.sum_cons, List.sum_nil]
    rw [h450, Real.sin_periodic, Real.sin_pi_div_two]
    ring
  have hcos : sumCoss [(⟨0, 5, 7, 450⟩ : WindObs), ⟨0, 5, 7, 450⟩] = 0 := by
    simp only [sumCoss, List.map_cons, List.map_nil, List.sum_cons, List.sum_nil]
    rw [h450, Real.cos_periodic, Real.cos_pi_div_two]
    ring
  have hdir : adjustedWindDirection (2:ℝ) 0 2 = 90 := by
    unfold adjustedWindDirection avgWindDirection atan2
    have h22 : (2:ℝ) / ((2:ℕ):ℝ) = 1 := by norm_num
    have h02 : (0:ℝ) / ((2:ℕ):ℝ) = 0 := by norm_num
    rw [h22, h02, show (⟨0, 1⟩ : ℂ) = Complex.I from rfl, Complex.arg_I]
    have hdeg : Real.pi / 2 * 180 / Real.pi = 90 := by
      field_simp
      ring
    rw [hdeg, jsMod_shift (90 + 360) (by norm_num) (by norm_num)]
    norm_num
  unfold bucketFor
  rw [show ([(⟨0, 5, 7, 450⟩ : WindObs), ⟨0, 5, 7, 450⟩]).length = 2 from rfl,
    hsin, hcos, hdir]
  simp only [WindBucket.mk.injEq, sumSpeeds, sumGusts, List.map_cons, List.map_nil,
    List.sum_cons, List.sum_nil]
  norm_num

/-- Claim C8 (amended): aggregating `N ≥ 1` identical observations yields a
single bucket whose mean speed and gust equal the observation's values, and
whose mean direction equals the observation's direction provided that
direction lies in `[0, 360)` (otherwise it is normalised into that range). -/
theorem claim_C8_theorem : ∀ (n : ℕ) (o : WindObs), 0 < n →
    0 ≤ o.windDirection → o.windDirection < 360 →
    aggregatedWindData (List.replicate n o) =
      [⟨roundToNearestMinutes15 o.time, o.windSpeed, o.windGust,
        (o.windDirection : ℝ), false⟩] :=
  fun n o hn h0 h1 => agg_replicate n hn o h0 h1

/-- Claim C8 witness. -/
theorem claim_C8_witness :
    aggregatedWindData (List.replicate 3 ⟨0, 6, 9, 90⟩) = [⟨0, 6, 9, 90, false⟩] := by
  have h := claim_C8_theorem 3 ⟨0, 6, 9, 90⟩ (by decide) (by decide) (by decide)
  simpa [show roundToNearestMinutes15 0 = 0 from by decide] using h

lemma forecastFilter_subset (keep : ℤ → Bool) :
    ∀ (l : List ForecastPoint) (seen : List ℤ) (p : ForecastPoint),
      p ∈ forecastFilter keep l seen → p ∈ l := by
  intro l
  induction l with
  | nil =>
    intro seen p hp
    simp [forecastFilter] at hp
  | cons q l ih =>
    intro seen p hp
    by_cases h1 : q.time ∈ seen
    · simp only [forecastFilter, if_pos h1] at hp
      exact List.mem_cons_of_mem _ (ih _ _ hp)
    · by_cases h2 : keep q.time
      · simp only [forecastFilter, if_neg h1, if_pos h2] at hp
        rcases List.mem_cons.mp hp with h | h
        · rw [h]
          exact List.mem_cons_self _ _
        · exact List.mem_cons_of_mem _ (ih _ _ h)
      · simp only [forecastFilter, if_neg h1, if_neg h2] at hp
        exact List.mem_cons_of_mem _ (ih _ _ hp)

lemma toForecastPoint_fields {f : SmhiTimePoint} {p : ForecastPoint}
    (h : toForecastPoint? f = some p) :
    p.windGust = p.windSpeed * (3 / 2) ∧ p.isForecast = true := by
  unfold toForecastPoint? at h
  rcases hv : f.validTime with _ | t
  · rw [hv] at h
    exact absurd h (by simp)
  · rw [hv] at h
    rcases hw : paramValue f "ws" with _ | ws
    · rw [hw] at h
      exact absurd h (by simp)
    · rw [hw] at h
      rcases hd : paramValue f "wd" with _ | wd
      · rw [hd] at h
        exact absurd h (by simp)
      · rw [hd] at h
        have hp := Option.some.inj h
        rw [← hp]
        exact ⟨rfl, rfl⟩

lemma dedupFilter_exists : ∀ (l : List RawWindData) (seen : List ℤ) (o : WindObs),
    o ∈ dedupFilter l seen → ∃ r ∈ l, toObs? r = some o := by
  intro l
  induction l with
  | nil =>
    intro seen o ho
    simp [dedupFilter] at ho
  | cons r l ih =>
    intro seen o ho
    rcases h : toObs? r with _ | x
    · simp only [dedupFilter, h] at ho
      obtain ⟨r', hr', h2⟩ := ih _ _ ho
      exact ⟨r', List.mem_cons_of_mem _ hr', h2⟩
    · simp only [dedupFilter, h] at ho
      by_cases hx : x.time ∈ seen
      · rw [if_pos hx] at ho
        obtain ⟨r', hr', h2⟩ := ih _ _ ho
        exact ⟨r', List.mem_cons_of_mem _ hr', h2⟩
      · rw [if_neg hx] at ho
        rcases List.mem_cons.mp ho with h3 | h3
        · exact ⟨r, List.mem_cons_self _ _, by rw [h, h3]⟩
        · obtain ⟨r', hr', h2⟩ := ih _ _ h3
          exact ⟨r', List.mem_cons_of_mem _ hr', h2⟩

lemma dedupFilter_times : ∀ (l : List RawWindData) (seen : List ℤ),
    ((dedupFilter l seen).map WindObs.time).Nodup ∧
    ∀ t ∈ (dedupFilter l seen).map WindObs.time, t ∉ seen := by
  intro l
  induction l with
  | nil =>
    intro seen
    simp [dedupFilter]
  | cons r l ih =>
    intro seen
    rcases h : toObs? r with _ | x
    · simp only [dedupFilter, h]
      exact ih seen
    · simp only [dedupFilter, h]
      by_cases hx : x.time ∈ seen
      · rw [if_pos hx]
        exact ih seen
      · rw [if_neg hx]
        obtain ⟨ihn, ihs⟩ := ih (x.time :: seen)
        refine ⟨?_, ?_⟩
        · simp only [List.map_cons, List.nodup_cons]
          refine ⟨?_, ihn⟩
          intro hc
          exact ihs x.time hc (List.mem_cons_self _ _)
        · intro t ht
          simp only [List.map_cons, List.mem_cons] at ht
          rcases ht with h1 | h1
          · rw [h1]
            exact hx
          · intro hc
            exact ihs t h1 (List.mem_cons_of_mem _ hc)

lemma dedupFilter_mem_iff : ∀ (l : List RawWindData) (seen : List ℤ) (o : WindObs),
    o ∈ dedupFilter l seen ↔
      (o.time ∉ seen ∧
        (l.filterMap toObs?).find? (fun x => x.time == o.time) = some o) := by
  intro l
  induction l with
  | nil =>
    intro seen o
    simp [dedupFilter]
  | cons r l ih =>
    intro seen o
    rcases h : toObs? r with _ | x
    · have hfm : (r :: l).filterMap toObs? = l.filterMap toObs? := by
        simp [List.filterMap_cons, h]
      simp only [dedupFilter, h, hfm]
      exact ih seen o
    · have hfm : (r :: l).filterMap toObs? = x :: l.filterMap toObs? := by
        simp [List.filterMap_cons, h]
      rw [hfm]
      by_cases hx : x.time ∈ seen
      · have hd : dedupFilter (r :: l) seen = dedupFilter l seen := by
          simp [dedupFilter, h, hx]
        rw [hd, ih seen o]
        by_cases he : x.time = o.time
        · rw [List.find?_cons_of_pos _ (by simp [he])]
          constructor
          · rintro ⟨hns, _⟩
            exact absurd (he ▸ hx) hns
          · rintro ⟨hns, _⟩
            exact absurd (he ▸ hx) hns
        · rw [List.find?_cons_of_neg _ (by simp [he])]
      · have hd : dedupFilter (r :: l) seen = x :: dedupFilter l (x.time :: seen) := by
          simp [dedupFilter, h, hx]
        rw [hd]
        by_cases he : x.time = o.time
        · rw [List.find?_cons_of_pos _ (by simp [he])]
          constructor
          · intro hmem
            rcases List.mem_cons.mp hmem with h3 | h3
            · subst h3
              exact ⟨hx, rfl⟩
            · have h4 := (ih (x.time :: seen) o).mp h3
              exact absurd (List.mem_cons.mpr (Or.inl he.symm)) h4.1
          · rintro ⟨hns, hsome⟩
            rw [← Option.some.inj hsome]
            exact List.mem_cons_self _ _
        · rw [List.find?_cons_of_neg _ (by simp [he])]
          constructor
          · intro hmem
            rcases List.mem_cons.mp hmem with h3 | h3
            · rw [h3] at he
              exact absurd rfl he
            · have h4 := (ih (x.time :: seen) o).mp h3
              refine ⟨?_, h4.2⟩
              intro hc
              exact h4.1 (List.mem_cons.mpr (Or.inr hc))
          · rintro ⟨hns, hfind⟩
            refine List.mem_cons.mpr (Or.inr ?_)
            refine (ih (x.time :: seen) o).mpr ⟨?_, hfind⟩
            intro hc
            rcases List.mem_cons.mp hc with h1 | h1
            · exact he h1.symm
            · exact hns h1

/-- Claim C9: every record produced by the forecast pipeline carries the
synthetic gust `windSpeed * 1.5` (never a measured value — the `gust` SMHI
parameter is not even read) and is tagged `isForecast = true`, while the
observation pipeline passes the measured `windGust` through unchanged in the
same field of the same record shape, with no dedicated field marking a gust
as estimated. -/
theorem claim_C9_theorem :
    (∀ (todayStart todayEnd now : ℤ) (l : List SmhiTimePoint),
      ∀ p ∈ processedForecastData todayStart todayEnd now l,
        p.windGust = p.windSpeed * (3 / 2) ∧ p.isForecast = true) ∧
    (∀ (l : List RawWindData), ∀ o ∈ processedWindData l,
      ∃ r ∈ l, toObs? r = some o) := by
  constructor
  · intro ts te now l p hp
    unfold processedForecastData at hp
    have hp2 := (List.perm_insertionSort (fun a b : ForecastPoint => a.time ≤ b.time) _).mem_iff.mp hp
    have hp3 := forecastFilter_subset _ _ _ _ hp2
    obtain ⟨f, _, hfp⟩ := List.mem_filterMap.mp hp3
    exact toForecastPoint_fields hfp
  · intro l o ho
    unfold processedWindData at ho
    have ho2 := (List.perm_insertionSort (fun a b : WindObs => a.time ≤ b.time) _).mem_iff.mp ho
    exact dedupFilter_exists l [] o ho2

/-- Claim C9 witness. -/
theorem claim_C9_witness :
    ((⟨100, 4, 180, 6, true⟩ : ForecastPoint).windGust
        = (⟨100, 4, 180, 6, true⟩ : ForecastPoint).windSpeed * (3 / 2) ∧
      (⟨100, 4, 180, 6, true⟩ : ForecastPoint).isForecast = true) ∧
    ∃ r ∈ ([⟨some 10, some 1, some 2, some 3⟩] : List RawWindData),
      toObs? r = some ⟨10, 1, 2, 3⟩ := by
  constructor
  · refine claim_C9_theorem.1 0 1000 0 [⟨some 100, [⟨"ws", [4]⟩, ⟨"wd", [180]⟩]⟩] _ ?_
    simp [processedForecastData, hasWindParams, toForecastPoint?, paramValue,
      forecastFilter, forecastKeep, List.insertionSort]
    norm_num
  · refine claim_C9_theorem.2 [⟨some 10, some 1, some 2, some 3⟩] _ ?_
    simp [processedWindData, dedupFilter, toObs?, List.insertionSort]

/-- Claim C10: the observation-preparation step drops invalid records and,
among the valid records sharing a timestamp, keeps exactly the first
encountered — so the output's timestamps are pairwise distinct, and a
validated observation is in the output iff it is the first valid record
with its timestamp. -/
theorem claim_C10_theorem : ∀ l : List RawWindData,
    ((processedWindData l).map WindObs.time).Nodup ∧
    ∀ o : WindObs, o ∈ processedWindData l ↔
      (l.filterMap toObs?).find? (fun x => x.time == o.time) = some o := by
  intro l
  have hperm := List.perm_insertionSort (fun a b : WindObs => a.time ≤ b.time)
    (dedupFilter l [])
  constructor
  · exact ((hperm.map WindObs.time).nodup_iff).mpr (dedupFilter_times l []).1
  · intro o
    unfold processedWindData
    rw [hperm.mem_iff, dedupFilter_mem_iff l [] o]
    simp

end Kallsjon
